import Mathlib

/-!
Verification development for the symedia repository (Go).

The definitions below are a shallow embedding of the program's core
pipeline, translated from the Go sources:
  * `src/util.go`    — `ConstructPath`, `ConstructFilename`;
  * `src/main.go`    — `WalkPath` and its `visit` closure, `ReadImage`,
    `ReadVideo`, the `Img`/`Vid` classification regexes, the `FlagType`
    status values and the two `time.Parse` layouts.

Go's `time.Time` is embedded as a record of broken-down calendar fields
plus a fixed UTC offset in minutes (the only shape of time the program
ever builds: `time.Parse` of the two fixed layouts yields exactly such a
value).  The filesystem, the EXIF library and the ffprobe subprocess are
the environment: each visited file carries, as input data, the outcome
the environment would hand the program at each of its effect points
(openability, EXIF contents, probe report, mkdir and link results).
-/

namespace Symedia

/-! ## Time: the subset of Go `time.Time` the program constructs -/

/-- Broken-down time with a fixed zone, as produced by `time.Parse` of the
two layouts in `src/main.go` (`localDateLayout`, `tzDateLayout`).
`offsetMin` is the zone offset east of UTC in minutes; `nanos` the
sub-second part in nanoseconds. -/
structure GoTime where
  year : Nat
  month : Nat
  day : Nat
  hour : Nat
  minute : Nat
  second : Nat
  nanos : Nat
  offsetMin : Int
deriving DecidableEq, Repr

/-- Go's zero `time.Time`: January 1, year 1, 00:00:00 UTC. -/
def zeroTime : GoTime := ⟨1, 1, 1, 0, 0, 0, 0, 0⟩

/-- Gregorian leap-year rule (Go `time.isLeap`). -/
def isLeap (y : Nat) : Bool := y % 4 = 0 && (y % 100 ≠ 0 || y % 400 = 0)

/-- Days in the given month (Go `time.daysIn`). -/
def daysIn (m y : Nat) : Nat :=
  match m with
  | 1 => 31 | 2 => if isLeap y then 29 else 28 | 3 => 31 | 4 => 30
  | 5 => 31 | 6 => 30 | 7 => 31 | 8 => 31
  | 9 => 30 | 10 => 31 | 11 => 30 | 12 => 31
  | _ => 0

/-- Days from January 1 of year 1 to January 1 of year `y` (proleptic
Gregorian, floor division so that year 0 sits before year 1). -/
def daysBeforeYear (y : Nat) : Int :=
  365 * ((y : Int) - 1) + Int.fdiv ((y : Int) - 1) 4
    - Int.fdiv ((y : Int) - 1) 100 + Int.fdiv ((y : Int) - 1) 400

/-- Days from March-less January 1 to the first of month `m`. -/
def daysBeforeMonth (m : Nat) (leap : Bool) : Nat :=
  let base :=
    match m with
    | 1 => 0 | 2 => 31 | 3 => 59 | 4 => 90 | 5 => 120 | 6 => 151
    | 7 => 181 | 8 => 212 | 9 => 243 | 10 => 273 | 11 => 304 | 12 => 334
    | _ => 0
  if leap ∧ 3 ≤ m then base + 1 else base

/-- The day index of a calendar date counted from January 1 of year 1. -/
def daysFromCivil (y m d : Nat) : Int :=
  daysBeforeYear y + (daysBeforeMonth m (isLeap y) : Int) + (d : Int) - 1

/-- The absolute instant of a `GoTime` in seconds since Go's zero time
(January 1, year 1, 00:00:00 UTC): wall-clock seconds minus the zone
offset.  Mirrors the absolute time `time.Time` stores internally. -/
def absSeconds (t : GoTime) : Int :=
  daysFromCivil t.year t.month t.day * 86400
    + (t.hour : Int) * 3600 + (t.minute : Int) * 60 + (t.second : Int)
    - t.offsetMin * 60

/-- Go `Time.IsZero`: the instant equals the zero time's instant. -/
def isZero (t : GoTime) : Bool := absSeconds t = 0 && t.nanos = 0

/-! ## Path and filename derivation (`src/util.go`) -/

/-- One decimal digit character. -/
def dC (n : Nat) : Char := Char.ofNat (48 + n % 10)

/-- Two-digit zero-padded decimal, as Go's `Format` layouts `01`, `02`,
`15`, `04`, `05` print values below 100. -/
def pad2 (n : Nat) : String := String.mk [dC (n / 10), dC n]

/-- Four-digit zero-padded decimal, as Go's `Format` layout `2006` prints
years 0–9999. -/
def pad4 (n : Nat) : String :=
  String.mk [dC (n / 1000), dC (n / 100), dC (n / 10), dC n]

/-- Go's month abbreviations, layout `Jan`. -/
def monthAbbrev (m : Nat) : String :=
  match m with
  | 1 => "Jan" | 2 => "Feb" | 3 => "Mar" | 4 => "Apr" | 5 => "May"
  | 6 => "Jun" | 7 => "Jul" | 8 => "Aug" | 9 => "Sep" | 10 => "Oct"
  | 11 => "Nov" | 12 => "Dec" | _ => ""

/-- Go `path.Join` on the arguments this program passes it: the components
are non-empty and already clean, so the join is separator insertion. -/
def pathJoin (a b : String) : String := a ++ "/" ++ b

/-- The `-0700` zone rendering of `Format`: sign, two-digit hours,
two-digit minutes of the UTC offset. -/
def offsetText (off : Int) : String :=
  (if off < 0 then "-" else "+") ++ pad2 (off.natAbs / 60) ++ pad2 (off.natAbs % 60)

/-- `ConstructPath` (src/util.go): `path.Join(strconv.Itoa(tm.Year()),
tm.Format("01-Jan"), tm.Format("2006-01-02"))`. -/
def ConstructPath (tm : GoTime) : String :=
  pathJoin (pathJoin (toString tm.year) (pad2 tm.month ++ "-" ++ monthAbbrev tm.month))
    (pad4 tm.year ++ "-" ++ pad2 tm.month ++ "-" ++ pad2 tm.day)

/-- `ConstructFilename` (src/util.go): `tm.Format("2006-01-02 15.04.05 -0700")`. -/
def ConstructFilename (tm : GoTime) : String :=
  pad4 tm.year ++ "-" ++ pad2 tm.month ++ "-" ++ pad2 tm.day ++ " "
    ++ pad2 tm.hour ++ "." ++ pad2 tm.minute ++ "." ++ pad2 tm.second ++ " "
    ++ offsetText tm.offsetMin

/-! ## The two `time.Parse` layouts (`src/main.go`)

`localDateLayout = "2006-01-02T15:04:05.000000Z"` (the trailing `Z` is a
literal, so the parse carries no zone and Go yields a UTC time) and
`tzDateLayout = "2006-01-02T15:04:05-0700"` (explicit numeric zone).
Both demand fixed-width digit fields, validate the calendar ranges, and
must consume the whole input; Go's `Parse` additionally accepts an
optional fractional second directly after the seconds when the layout
itself has none. -/

/-- The value of a decimal digit character. -/
def digitVal (c : Char) : Option Nat :=
  if 48 ≤ c.toNat ∧ c.toNat ≤ 57 then some (c.toNat - 48) else none

/-- Exactly `k` digits, most significant first. -/
def parseDigitsAux (acc : Nat) : Nat → List Char → Option (Nat × List Char)
  | 0, l => some (acc, l)
  | _ + 1, [] => none
  | k + 1, c :: rest =>
    match digitVal c with
    | some v => parseDigitsAux (acc * 10 + v) k rest
    | none => none

/-- One required literal character. -/
def expectChar (c : Char) : List Char → Option (List Char)
  | [] => none
  | x :: rest => if x = c then some rest else none

/-- The shared `2006-01-02T15:04:05` part of the two layouts. -/
def parseDateTime (l : List Char) : Option ((Nat × Nat × Nat × Nat × Nat × Nat) × List Char) := do
  let (y, l) ← parseDigitsAux 0 4 l
  let l ← expectChar '-' l
  let (mo, l) ← parseDigitsAux 0 2 l
  let l ← expectChar '-' l
  let (d, l) ← parseDigitsAux 0 2 l
  let l ← expectChar 'T' l
  let (h, l) ← parseDigitsAux 0 2 l
  let l ← expectChar ':' l
  let (mi, l) ← parseDigitsAux 0 2 l
  let l ← expectChar ':' l
  let (s, l) ← parseDigitsAux 0 2 l
  pure ((y, mo, d, h, mi, s), l)

/-- The range checks Go's `Parse` applies to the parsed fields. -/
def fieldsValid (y mo d h mi s : Nat) : Bool :=
  1 ≤ mo && mo ≤ 12 && 1 ≤ d && d ≤ daysIn mo y && h < 24 && mi < 60 && s < 60

/-- `time.Parse(localDateLayout, v)`: fraction of exactly six digits, a
literal `Z`, no zone, hence UTC. -/
def parseLocalDate (v : String) : Option GoTime := do
  let ((y, mo, d, h, mi, s), l) ← parseDateTime v.data
  let l ← expectChar '.' l
  let (fr, l) ← parseDigitsAux 0 6 l
  let l ← expectChar 'Z' l
  if l = [] ∧ fieldsValid y mo d h mi s then
    pure ⟨y, mo, d, h, mi, s, fr * 1000, 0⟩
  else none

/-- Leading run of digits. -/
def takeDigits : List Char → List Nat × List Char
  | [] => ([], [])
  | c :: rest =>
    match digitVal c with
    | some v =>
      let (ds, l) := takeDigits rest
      (v :: ds, l)
    | none => ([], c :: rest)

/-- Digits after the decimal point, right-padded to nanoseconds. -/
def fracOfDigits (ds : List Nat) : Nat :=
  (ds.foldl (fun a v => a * 10 + v) 0) * 10 ^ (9 - ds.length)

/-- Go `Parse`'s optional fractional second: consumed only when a `.` or
`,` followed by a digit comes right after the seconds; at most nine
digits. -/
def parseOptFrac (l : List Char) : Option (Nat × List Char) :=
  match l with
  | c :: c2 :: rest =>
    if (c = '.' ∨ c = ',') ∧ (digitVal c2).isSome then
      let (ds, l') := takeDigits (c2 :: rest)
      if ds.length ≤ 9 then some (fracOfDigits ds, l') else none
    else some (0, c :: c2 :: rest)
  | _ => some (0, l)

/-- `time.Parse(tzDateLayout, v)`: numeric `±hhmm` zone. -/
def parseTzDate (v : String) : Option GoTime := do
  let ((y, mo, d, h, mi, s), l) ← parseDateTime v.data
  let (fr, l) ← parseOptFrac l
  let (sign, l) ←
    match l with
    | '+' :: rest => some ((1 : Int), rest)
    | '-' :: rest => some ((-1 : Int), rest)
    | _ => none
  let (zh, l) ← parseDigitsAux 0 2 l
  let (zm, l) ← parseDigitsAux 0 2 l
  if l = [] ∧ fieldsValid y mo d h mi s then
    pure ⟨y, mo, d, h, mi, s, fr, sign * (zh * 60 + zm)⟩
  else none

/-! ## Extractor outcomes and the error sentinels (`src/main.go`) -/

/-- The error values the walker distinguishes: `ErrSkipFile` is compared
by identity, everything else is "some other error". The remaining
constructors record which operation failed. -/
inductive GoErr
  | skipFile
  | noPath
  | ioError
  | execError
  | decodeError
  | mkdirError
  | linkError
deriving DecidableEq, Repr

/-- Extractor output (`FileMeta` in the Go source). -/
structure FileMeta where
  width : Int
  height : Int
  time : GoTime
deriving DecidableEq, Repr

/-! ## Video extractor (`ReadVideo`, src/main.go) -/

/-- One stream of the ffprobe report; a tag absent from the JSON leaves
the zero value (`""`, `0`). -/
structure FfStreamTags where
  creationTime : String
deriving DecidableEq, Repr

structure FfStream where
  width : Int
  height : Int
  codecType : String
  tags : FfStreamTags
deriving DecidableEq, Repr

structure FfFormatTags where
  creationTime : String
  qtCreationDate : String
deriving DecidableEq, Repr

structure FfFormat where
  tags : FfFormatTags
deriving DecidableEq, Repr

structure Ffprobe where
  streams : List FfStream
  format : FfFormat
deriving DecidableEq, Repr

/-- What the environment hands `ReadVideo`: the ffprobe subprocess fails,
the JSON decode fails with a non-EOF error, or a (possibly partial)
report is decoded. -/
inductive ProbeEnv
  | execFail
  | decodeFail
  | report (probe : Ffprobe)
deriving DecidableEq, Repr

/-- The dimension scan: first stream whose width and height are non-zero
and whose codec type is "video". -/
def firstVideoDims : List FfStream → Int × Int
  | [] => (0, 0)
  | s :: rest =>
    if s.width ≠ 0 ∧ s.height ≠ 0 ∧ s.codecType = "video" then (s.width, s.height)
    else firstVideoDims rest

/-- The stream loop of lines 563–569: first stream whose creation-time
tag parses with the local layout. -/
def firstStreamTime : List FfStream → Option GoTime
  | [] => none
  | s :: rest =>
    match parseLocalDate s.tags.creationTime with
    | some tm => some tm
    | none => firstStreamTime rest

/-- The meta value before the timestamp is filled in. -/
def probeDimsMeta (p : Ffprobe) : FileMeta :=
  { width := (firstVideoDims p.streams).1, height := (firstVideoDims p.streams).2,
    time := zeroTime }

/-- `ReadVideo` (src/main.go 515–584).  `inLocal` is `Time.In(time.Local)`:
the process-local-zone view of the same instant, applied when the local
(zone-less) layout supplied the timestamp. -/
def ReadVideo (inLocal : GoTime → GoTime) (env : ProbeEnv) : FileMeta × Option GoErr :=
  match env with
  | .execFail => ({ width := 0, height := 0, time := zeroTime }, some .execError)
  | .decodeFail => ({ width := 0, height := 0, time := zeroTime }, some .decodeError)
  | .report probe =>
    let meta0 := probeDimsMeta probe
    match parseTzDate probe.format.tags.qtCreationDate with
    | some tm =>
      if isZero tm then (meta0, some .skipFile) else ({ meta0 with time := tm }, none)
    | none =>
      match
        (match parseLocalDate probe.format.tags.creationTime with
         | some tm => some tm
         | none => firstStreamTime probe.streams) with
      | some tm =>
        let tm := inLocal tm
        if isZero tm then (meta0, some .skipFile) else ({ meta0 with time := tm }, none)
      | none => (meta0, some .skipFile)

/-! ## Image extractor (`ReadImage`, src/main.go) -/

/-- What the EXIF library yields for a decodable file: the two pixel
dimension tags and the capture timestamp (`x.DateTime()`), each possibly
absent. -/
structure ExifInfo where
  pixelX : Option Int
  pixelY : Option Int
  dateTime : Option GoTime
deriving DecidableEq, Repr

/-- What the environment hands `ReadImage` for one file: whether the file
opens, the decoded EXIF (none = undecodable), and what
`image.DecodeConfig` would recover for the deferred dimension fallback. -/
structure ImageFile where
  openable : Bool
  exif : Option ExifInfo
  altDims : Option (Int × Int)
deriving DecidableEq, Repr

/-- The deferred fallback of lines 473–483: when width or height is still
zero, a bare header decode fills them in; its failure is ignored. -/
def withAltDims (img : ImageFile) (m : FileMeta) : FileMeta :=
  if m.width = 0 ∨ m.height = 0 then
    match img.altDims with
    | some (w, h) => { m with width := w, height := h }
    | none => m
  else m

/-- `ReadImage` (src/main.go 466–512). -/
def ReadImage (img : ImageFile) : FileMeta × Option GoErr :=
  if img.openable = false then
    ({ width := 0, height := 0, time := zeroTime }, some .ioError)
  else
    match img.exif with
    | none => (withAltDims img { width := 0, height := 0, time := zeroTime }, some .skipFile)
    | some x =>
      let wh : Int × Int :=
        match x.pixelX, x.pixelY with
        | some px, some py => (px, py)
        | _, _ => (0, 0)
      let meta : FileMeta := { width := wh.1, height := wh.2, time := zeroTime }
      match x.dateTime with
      | none => (withAltDims img meta, some .skipFile)
      | some tm =>
        if isZero tm then (withAltDims img meta, some .skipFile)
        else (withAltDims img { meta with time := tm }, none)

/-! ## Classification (`Img`, `Vid`, src/main.go 225–227)

`Img = regexp.MustCompile("(?i).(jpe?g)")`, `Vid` likewise with
`mov|mp4|m4v`.  The unescaped `.` is the wildcard of Go's default regexp
mode — any character EXCEPT newline — so a name matches iff the
(case-folded) pattern occurs right after some non-newline character. -/

/-- ASCII case folding (the patterns are ASCII; `(?i)` folds them). -/
def lcChar (c : Char) : Char :=
  if 'A' ≤ c ∧ c ≤ 'Z' then Char.ofNat (c.toNat + 32) else c

def lowerData (s : String) : List Char := s.data.map lcChar

/-- `strings.ToLower` on the ASCII extensions this program feeds it. -/
def strToLower (s : String) : String := String.mk (lowerData s)

/-- Does `pat` occur as a contiguous run somewhere in `l`? -/
def isSubstr (pat : List Char) : List Char → Bool
  | [] => pat.isEmpty
  | c :: rest => List.isPrefixOf pat (c :: rest) || isSubstr pat rest

/-- Does `pat` occur in `l` immediately after some character other than
`'\n'`?  The regex's `.` wildcard consumes that character, and Go's
default `.` does not match newline. -/
def occursShifted (pat : String) (l : List Char) : Bool :=
  match l with
  | [] => false
  | c :: rest => (c != '\n' && List.isPrefixOf pat.data rest) || occursShifted pat rest

/-- `Img.MatchString`. -/
def ImgMatch (name : String) : Bool :=
  occursShifted "jpg" (lowerData name) || occursShifted "jpeg" (lowerData name)

/-- `Vid.MatchString`. -/
def VidMatch (name : String) : Bool :=
  occursShifted "mov" (lowerData name) || occursShifted "mp4" (lowerData name)
    || occursShifted "m4v" (lowerData name)

/-! ## The walker (`WalkPath`, src/main.go 239–323) -/

/-- Per-file status (`FlagType`, src/main.go 31–47). -/
inductive FlagType
  | flagUnknown
  | flagError
  | flagSkipped
  | flagExists
  | flagImage
  | flagVideo
deriving DecidableEq, Repr, Inhabited

/-- One inventory record (`File` in the Go source). -/
structure File where
  origin : String
  link : String
  flag : FlagType
  size : Int
  name : String
  ext : String
  width : Int
  height : Int
deriving DecidableEq, Repr, Inhabited

/-- `filepath.Ext`: the suffix from the final dot of the last path
element; empty when there is none. -/
def extFromRev (acc : List Char) : List Char → List Char
  | [] => []
  | c :: rest =>
    if c = '/' then []
    else if c = '.' then c :: acc
    else extFromRev (c :: acc) rest

def goExt (s : String) : String := String.mk (extFromRev [] s.data.reverse)

/-- Go's `s[1:]`: panics (None) when the string is shorter than one
byte. -/
def sliceFrom1 (s : String) : Option String :=
  if s.data = [] then none else some (String.mk s.data.tail)

/-- The result of `os.Link` as the environment resolves it. -/
inductive LinkOutcome
  | ok
  | alreadyExists
  | fail
deriving DecidableEq, Repr

/-- One entry of the traversal, with the outcomes the environment would
give each of the visit's effect points: `extract` is what
`ReadImage`/`ReadVideo` returns for this path (only consulted when the
name classifies), `mkdirOk` the `os.MkdirAll` result, `link` the
`os.Link` result. -/
structure Entry where
  fpath : String
  name : String
  isDir : Bool
  size : Int
  extract : FileMeta × Option GoErr
  mkdirOk : Bool
  link : LinkOutcome
deriving DecidableEq, Repr

/-- What one call of the `visit` closure does: panic (the deferred append
has not run yet, so no record), skip a directory, or finalize a record
and return `err` to `filepath.Walk`. -/
inductive VisitResult
  | panicked
  | dirSkip
  | done (r : File) (err : Option GoErr)
deriving DecidableEq, Repr

/-- Lines 285–316: the shared tail of the two classified branches — the
`ErrSkipFile` test, the empty-path guard, `os.MkdirAll`, `os.Link` with
the `os.IsExist` escape, and the link-path assignment. -/
def placeFile (e : Entry) (newPath : String) (file : File) (err : Option GoErr) : VisitResult :=
  match err with
  | some .skipFile => .done { file with flag := .flagSkipped } none
  | some _ => .done { file with flag := .flagError } none
  | none =>
    if newPath = "" then .done { file with flag := .flagError } (some .noPath)
    else if e.mkdirOk = false then .done { file with flag := .flagError } (some .mkdirError)
    else
      match e.link with
      | .ok => .done { file with link := pathJoin newPath file.name } none
      | .alreadyExists =>
        .done { file with flag := .flagExists, link := pathJoin newPath file.name } none
      | .fail => .done { file with flag := .flagError } (some .linkError)

/-- The `visit` closure (src/main.go 243–317).  `outDir` only feeds the
`os.MkdirAll`/`os.Link` syscalls, whose outcomes the entry carries. -/
def visit (outDir : String) (e : Entry) : VisitResult :=
  let _ := outDir
  if e.isDir then .dirSkip
  else
    match sliceFrom1 (goExt e.name) with
    | none => .panicked
    | some rawExt =>
      let ext := strToLower rawExt
      let file0 : File :=
        { origin := e.fpath, link := "", flag := .flagUnknown, size := e.size,
          name := e.name, ext := ext, width := 0, height := 0 }
      if ImgMatch e.name then
        let meta := e.extract.1
        let newPath := ConstructPath meta.time
        let file : File :=
          { file0 with name := ConstructFilename meta.time ++ "." ++ ext,
                       flag := .flagImage, width := meta.width, height := meta.height }
        placeFile e newPath file e.extract.2
      else if VidMatch e.name then
        let meta := e.extract.1
        let newPath := ConstructPath meta.time
        let file : File :=
          { file0 with name := ConstructFilename meta.time ++ "." ++ ext,
                       flag := .flagVideo, width := meta.width, height := meta.height }
        placeFile e newPath file e.extract.2
      else .done file0 none

/-- How the whole walk ended: normally (with `filepath.Walk`'s error), or
by an uncaught panic escaping `WalkPath`. -/
inductive WalkOutcome
  | finished (err : Option GoErr)
  | panicked
deriving DecidableEq, Repr

/-- `WalkPath` over the entries `filepath.Walk` would visit, in traversal
order: a visit returning a non-nil error stops the walk and that error is
returned with the records gathered so far. -/
def walkPath (outDir : String) : List Entry → List File × WalkOutcome
  | [] => ([], .finished none)
  | e :: rest =>
    match visit outDir e with
    | .panicked => ([], .panicked)
    | .dirSkip => walkPath outDir rest
    | .done r none => (r :: (walkPath outDir rest).1, (walkPath outDir rest).2)
    | .done r (some er) => ([r], .finished (some er))

/-- The spec's ordered timestamp fallback chain (§4.3), written from the
spec's words: the vendor creation-date tag with the timezone-qualified
layout; else the generic container creation-time tag with the local
layout; else the first stream, in stream order, whose creation-time tag
parses with the local layout — and a timestamp obtained through the local
layout is viewed in the process's local zone. -/
def specVideoChain (inLocal : GoTime → GoTime) (p : Ffprobe) : Option GoTime :=
  match parseTzDate p.format.tags.qtCreationDate with
  | some tm => some tm
  | none =>
    match parseLocalDate p.format.tags.creationTime with
    | some tm => some (inLocal tm)
    | none => Option.map inLocal (p.streams.findSome? fun s => parseLocalDate s.tags.creationTime)

/-- The record a (non-directory, non-panicking) visit finalizes. -/
def recordOf (outDir : String) (e : Entry) : File :=
  match visit outDir e with
  | .done r _ => r
  | _ => default

/-- The error a visit returns to `filepath.Walk`. -/
def visitErr (outDir : String) (e : Entry) : Option GoErr :=
  match visit outDir e with
  | .done _ er => er
  | _ => none

/-! ## Basic string facts -/

lemma stringDataAppend (a b : String) : (a ++ b).data = a.data ++ b.data := by
  cases a
  cases b
  rfl

lemma pathJoin_ne_empty (a b : String) : pathJoin a b ≠ "" := by
  intro h
  have h2 : (pathJoin a b).data = ("" : String).data := congrArg String.data h
  simp only [pathJoin, stringDataAppend, show ("/" : String).data = ['/'] from rfl,
    show ("" : String).data = [] from rfl, List.append_eq_nil] at h2
  exact List.cons_ne_nil _ _ h2.1.2

lemma constructPath_ne_empty (t : GoTime) : ConstructPath t ≠ "" :=
  pathJoin_ne_empty _ _

/-! ## The per-record invariant behind the walker theorems -/

lemma placeFile_inv (e : Entry) (np : String) (file : File) (err : Option GoErr)
    (hl : file.link = "") (hf : file.flag = .flagImage ∨ file.flag = .flagVideo)
    (hnp : np ≠ "") (r : File) (er : Option GoErr)
    (h : placeFile e np file err = .done r er) :
    (r.link ≠ "" ↔ (r.flag = .flagImage ∨ r.flag = .flagVideo ∨ r.flag = .flagExists)) := by
  rcases err with _ | er'
  · simp only [placeFile, if_neg hnp] at h
    by_cases hm : e.mkdirOk = false
    · rw [if_pos hm] at h
      cases h
      simp [hl]
    · rw [if_neg hm] at h
      cases hle : e.link <;> rw [hle] at h <;> cases h
      · simp only [pathJoin_ne_empty, ne_eq, not_false_eq_true, true_iff]
        rcases hf with hf | hf <;> simp [hf]
      · simp [pathJoin_ne_empty]
      · simp [hl]
  · cases er' <;> cases h <;> simp [hl]

lemma visit_inv (o : String) (e : Entry) (r : File) (er : Option GoErr)
    (h : visit o e = .done r er) :
    (r.link ≠ "" ↔ (r.flag = .flagImage ∨ r.flag = .flagVideo ∨ r.flag = .flagExists)) := by
  simp only [visit] at h
  split at h
  · simp at h
  · split at h
    · simp at h
    · split at h
      · exact placeFile_inv _ _ _ _ rfl (Or.inl rfl) (constructPath_ne_empty _) _ _ h
      · split at h
        · exact placeFile_inv _ _ _ _ rfl (Or.inr rfl) (constructPath_ne_empty _) _ _ h
        · cases h
          simp

/-! ## Case equations for the placement step -/

lemma placeFile_skip (e : Entry) (np : String) (file : File) :
    placeFile e np file (some .skipFile) = .done { file with flag := .flagSkipped } none := rfl

lemma placeFile_err (e : Entry) (np : String) (file : File) (er : GoErr)
    (h : er ≠ .skipFile) :
    placeFile e np file (some er) = .done { file with flag := .flagError } none := by
  cases er
  · exact absurd rfl h
  all_goals rfl

lemma placeFile_mkdirFail (e : Entry) (np : String) (file : File)
    (hnp : np ≠ "") (hm : e.mkdirOk = false) :
    placeFile e np file none = .done { file with flag := .flagError } (some .mkdirError) := by
  simp [placeFile, hnp, hm]

lemma placeFile_linkFail (e : Entry) (np : String) (file : File)
    (hnp : np ≠ "") (hm : e.mkdirOk = true) (hl : e.link = .fail) :
    placeFile e np file none = .done { file with flag := .flagError } (some .linkError) := by
  simp [placeFile, hnp, hm, hl]

lemma placeFile_ok (e : Entry) (np : String) (file : File)
    (hnp : np ≠ "") (hm : e.mkdirOk = true) (hl : e.link = .ok) :
    placeFile e np file none = .done { file with link := pathJoin np file.name } none := by
  simp [placeFile, hnp, hm, hl]

lemma placeFile_exists (e : Entry) (np : String) (file : File)
    (hnp : np ≠ "") (hm : e.mkdirOk = true) (hl : e.link = .alreadyExists) :
    placeFile e np file none =
      .done { file with flag := .flagExists, link := pathJoin np file.name } none := by
  simp [placeFile, hnp, hm, hl]

/-- For a classified (image- or video-matching) non-directory entry whose
name has an extension, the visit is the classified record handed to the
placement step. -/
lemma visit_classified_eq (o : String) (e : Entry) (rawExt : String)
    (hdir : e.isDir = false) (hext : sliceFrom1 (goExt e.name) = some rawExt)
    (hclass : ImgMatch e.name = true ∨ VidMatch e.name = true) :
    visit o e = placeFile e (ConstructPath e.extract.1.time)
      { origin := e.fpath, link := "",
        flag := if ImgMatch e.name then FlagType.flagImage else FlagType.flagVideo,
        size := e.size,
        name := ConstructFilename e.extract.1.time ++ "." ++ strToLower rawExt,
        ext := strToLower rawExt, width := e.extract.1.width, height := e.extract.1.height }
      e.extract.2 := by
  by_cases hi : ImgMatch e.name = true
  · simp [visit, hdir, hext, hi]
  · rcases hclass with h | h
    · exact absurd h hi
    · simp [visit, hdir, hext, hi, h]

/-- C2. For every record the walk appends to the inventory, the `link`
field is non-empty exactly when the record's status is a terminal
success (`FlagImage`/`FlagVideo`, i.e. placed) or `FlagExists`
(already linked); `FlagUnknown`, `FlagError` and `FlagSkipped` records
always carry an empty link. -/
theorem walk_link_nonempty_iff_placed (o : String) (es : List Entry) (f : File)
    (hf : f ∈ (walkPath o es).1) :
    f.link ≠ "" ↔ (f.flag = .flagImage ∨ f.flag = .flagVideo ∨ f.flag = .flagExists) := by
  induction es with
  | nil => simp [walkPath] at hf
  | cons e rest ih =>
    rw [walkPath] at hf
    cases hv : visit o e with
    | panicked => rw [hv] at hf; simp at hf
    | dirSkip => rw [hv] at hf; exact ih hf
    | done r er =>
      cases er with
      | none =>
        rw [hv] at hf
        simp only [List.mem_cons] at hf
        rcases hf with rfl | hf
        · exact visit_inv o e f none hv
        · exact ih hf
      | some er' =>
        rw [hv] at hf
        simp only [List.mem_singleton] at hf
        subst hf
        exact visit_inv o e f (some er') hv

/-- Witness for C2 at a concrete two-file walk: a placed image record
(non-empty link) and a skipped video record (empty link). -/
theorem walk_link_nonempty_iff_placed_witness :
    ({ origin := "in/a.jpg", link := "2016/07-Jul/2016-07-18/2016-07-18 02.29.36 +0000.jpg",
       flag := .flagImage, size := 5, name := "2016-07-18 02.29.36 +0000.jpg", ext := "jpg",
       width := 40, height := 30 } : File).link ≠ "" ↔
      (({ origin := "in/a.jpg", link := "2016/07-Jul/2016-07-18/2016-07-18 02.29.36 +0000.jpg",
          flag := .flagImage, size := 5, name := "2016-07-18 02.29.36 +0000.jpg", ext := "jpg",
          width := 40, height := 30 } : File).flag = .flagImage ∨
        ({ origin := "in/a.jpg", link := "2016/07-Jul/2016-07-18/2016-07-18 02.29.36 +0000.jpg",
           flag := .flagImage, size := 5, name := "2016-07-18 02.29.36 +0000.jpg", ext := "jpg",
           width := 40, height := 30 } : File).flag = .flagVideo ∨
        ({ origin := "in/a.jpg", link := "2016/07-Jul/2016-07-18/2016-07-18 02.29.36 +0000.jpg",
           flag := .flagImage, size := 5, name := "2016-07-18 02.29.36 +0000.jpg", ext := "jpg",
           width := 40, height := 30 } : File).flag = .flagExists) :=
  walk_link_nonempty_iff_placed "out"
    [{ fpath := "in/a.jpg", name := "a.jpg", isDir := false, size := 5,
       extract := (⟨40, 30, ⟨2016, 7, 18, 2, 29, 36, 0, 0⟩⟩, none), mkdirOk := true,
       link := .ok }] _ (by decide)

/-! ## Concrete inputs used by witnesses and counterexamples -/

/-- 2016-07-18 02:29:36 UTC. -/
def tmJul : GoTime := ⟨2016, 7, 18, 2, 29, 36, 0, 0⟩

/-- A jpeg entry whose extraction and placement both succeed. -/
def entGoodJpg : Entry :=
  { fpath := "in/a.jpg", name := "a.jpg", isDir := false, size := 5,
    extract := (⟨40, 30, tmJul⟩, none), mkdirOk := true, link := .ok }

/-- A jpeg entry whose extraction succeeds but whose destination
directory cannot be created. -/
def entMkdirFail : Entry :=
  { fpath := "in/b.jpg", name := "b.jpg", isDir := false, size := 7,
    extract := (⟨40, 30, tmJul⟩, none), mkdirOk := false, link := .ok }

/-- A jpeg entry whose extractor declines with the skip sentinel. -/
def entSkipJpg : Entry :=
  { fpath := "in/c.jpg", name := "c.jpg", isDir := false, size := 9,
    extract := (⟨0, 0, zeroTime⟩, some .skipFile), mkdirOk := true, link := .ok }

/-- `entGoodJpg` with a pre-existing destination link. -/
def entExistsJpg : Entry :=
  { fpath := "in/a.jpg", name := "a.jpg", isDir := false, size := 5,
    extract := (⟨40, 30, tmJul⟩, none), mkdirOk := true, link := .alreadyExists }

/-! ## C1: which per-file failures abort the walk -/

/-- Counterexample to C1 as stated: a per-file directory-creation failure
(first entry) aborts the whole walk — the second, healthy file is never
visited (one record, not two) and the error is returned to the caller. -/
theorem walk_mkdir_failure_aborts_cex :
    (walkPath "out" [entMkdirFail, entGoodJpg]).1.length = 1 ∧
    (walkPath "out" [entMkdirFail, entGoodJpg]).2 = .finished (some .mkdirError) ∧
    (recordOf "out" entMkdirFail).flag = .flagError := by decide

/-- C1 (amended). For a classified file, an extraction failure (the skip
sentinel or a hard error) is recorded in the file's record and the walk
continues with the remaining entries; but a directory-creation failure or
a non-EEXIST link failure makes the visit return that error, so the
record is still appended (status Error) while the remaining entries are
not visited and the error is returned to the caller. -/
theorem walk_error_propagation (o : String) (e : Entry) (rest : List Entry) (rawExt : String)
    (hdir : e.isDir = false) (hext : sliceFrom1 (goExt e.name) = some rawExt)
    (hclass : ImgMatch e.name = true ∨ VidMatch e.name = true) :
    walkPath o (e :: rest) =
      (if e.extract.2 = none ∧ (e.mkdirOk = false ∨ e.link = .fail) then
        ([recordOf o e],
          .finished (some (if e.mkdirOk = false then GoErr.mkdirError else GoErr.linkError)))
      else (recordOf o e :: (walkPath o rest).1, (walkPath o rest).2)) ∧
    (recordOf o e).flag =
      (if e.extract.2 = some .skipFile then .flagSkipped
       else if e.extract.2 ≠ none then .flagError
       else if e.mkdirOk = false ∨ e.link = .fail then .flagError
       else if e.link = .alreadyExists then .flagExists
       else if ImgMatch e.name then .flagImage else .flagVideo) := by
  have hv := visit_classified_eq o e rawExt hdir hext hclass
  rcases hx : e.extract.2 with _ | er
  · rw [hx] at hv
    by_cases hm : e.mkdirOk = false
    · rw [placeFile_mkdirFail e _ _ (constructPath_ne_empty _) hm] at hv
      simp [walkPath, hv, recordOf, hx, hm]
    · have hm' : e.mkdirOk = true := by
        cases hmk : e.mkdirOk
        · exact absurd hmk hm
        · rfl
      cases hl : e.link
      · rw [placeFile_ok e _ _ (constructPath_ne_empty _) hm' hl] at hv
        simp [walkPath, hv, recordOf, hx, hm, hl]
      · rw [placeFile_exists e _ _ (constructPath_ne_empty _) hm' hl] at hv
        simp [walkPath, hv, recordOf, hx, hm, hl]
      · rw [placeFile_linkFail e _ _ (constructPath_ne_empty _) hm' hl] at hv
        simp [walkPath, hv, recordOf, hx, hm, hl]
  · rw [hx] at hv
    by_cases hsk : er = .skipFile
    · subst hsk
      rw [placeFile_skip] at hv
      simp [walkPath, hv, recordOf, hx]
    · rw [placeFile_err e _ _ er hsk] at hv
      simp [walkPath, hv, recordOf, hx, hsk]

/-- Witness for C1 (amended) at the concrete aborting entry: extraction
succeeded, directory creation failed, the record is kept with status
Error, the second entry is never visited and the error is surfaced. -/
theorem walk_error_propagation_witness :
    walkPath "out" (entMkdirFail :: [entGoodJpg]) =
      (if entMkdirFail.extract.2 = none ∧
          (entMkdirFail.mkdirOk = false ∨ entMkdirFail.link = .fail) then
        ([recordOf "out" entMkdirFail],
          .finished (some (if entMkdirFail.mkdirOk = false then GoErr.mkdirError
            else GoErr.linkError)))
      else (recordOf "out" entMkdirFail :: (walkPath "out" [entGoodJpg]).1,
        (walkPath "out" [entGoodJpg]).2)) ∧
    (recordOf "out" entMkdirFail).flag =
      (if entMkdirFail.extract.2 = some .skipFile then .flagSkipped
       else if entMkdirFail.extract.2 ≠ none then .flagError
       else if entMkdirFail.mkdirOk = false ∨ entMkdirFail.link = .fail then .flagError
       else if entMkdirFail.link = .alreadyExists then .flagExists
       else if ImgMatch entMkdirFail.name then .flagImage else .flagVideo) :=
  walk_error_propagation "out" entMkdirFail [entGoodJpg] "jpg" (by decide) (by decide)
    (Or.inl (by decide))

/-! ## C7: a pre-existing destination link -/

/-- C7. When the hard link fails because the destination already exists,
the finalized record equals the one a successful placement would have
produced except that its status is `FlagExists` (AlreadyLinked); its link
is the same `{relativeDirectory}/{filename}` path, and no error is
returned (no collision resolution or renaming happens). -/
theorem link_exists_already_linked (o : String) (e : Entry) (rawExt : String)
    (meta : FileMeta)
    (hdir : e.isDir = false) (hext : sliceFrom1 (goExt e.name) = some rawExt)
    (hclass : ImgMatch e.name = true ∨ VidMatch e.name = true)
    (hex : e.extract = (meta, none)) (hmk : e.mkdirOk = true)
    (hlink : e.link = .alreadyExists) :
    recordOf o e = { recordOf o { e with link := .ok } with flag := .flagExists } ∧
    (recordOf o e).link = pathJoin (ConstructPath meta.time)
      (ConstructFilename meta.time ++ "." ++ strToLower rawExt) ∧
    visitErr o e = none := by
  have hv := visit_classified_eq o e rawExt hdir hext hclass
  have hv' := visit_classified_eq o { e with link := .ok } rawExt hdir hext hclass
  have hex1 : e.extract.1 = meta := by rw [hex]
  have hex2 : e.extract.2 = none := by rw [hex]
  have hA : ({ e with link := .ok } : Entry).extract.1 = meta := hex1
  have hB : ({ e with link := .ok } : Entry).extract.2 = none := hex2
  rw [hex1, hex2] at hv
  rw [hA, hB] at hv'
  rw [placeFile_exists e _ _ (constructPath_ne_empty _) hmk hlink] at hv
  rw [placeFile_ok { e with link := .ok } _ _ (constructPath_ne_empty _) hmk rfl] at hv'
  simp [recordOf, visitErr, hv, hv']

/-- Witness for C7 at the concrete pre-existing-link entry. -/
theorem link_exists_already_linked_witness :
    recordOf "out" entExistsJpg =
      { recordOf "out" { entExistsJpg with link := .ok } with flag := .flagExists } ∧
    (recordOf "out" entExistsJpg).link = pathJoin (ConstructPath (⟨40, 30, tmJul⟩ : FileMeta).time)
      (ConstructFilename (⟨40, 30, tmJul⟩ : FileMeta).time ++ "." ++ strToLower "jpg") ∧
    visitErr "out" entExistsJpg = none :=
  link_exists_already_linked "out" entExistsJpg "jpg" ⟨40, 30, tmJul⟩ (by decide) (by decide)
    (Or.inl (by decide)) (by decide) (by decide) (by decide)

/-! ## C3, C4: the video timestamp fallback chain -/

lemma firstStreamTime_findSome (ss : List FfStream) :
    firstStreamTime ss = ss.findSome? (fun s => parseLocalDate s.tags.creationTime) := by
  induction ss with
  | nil => rfl
  | cons s rest ih =>
    cases h : parseLocalDate s.tags.creationTime <;>
      simp [firstStreamTime, List.findSome?, h, ih]

lemma firstStreamTime_mem (ss : List FfStream) (tm : GoTime)
    (h : firstStreamTime ss = some tm) :
    ∃ s ∈ ss, parseLocalDate s.tags.creationTime = some tm := by
  induction ss with
  | nil => cases h
  | cons s rest ih =>
    rw [firstStreamTime] at h
    cases hp : parseLocalDate s.tags.creationTime <;> rw [hp] at h
    · rcases ih h with ⟨s', hs', hp'⟩
      exact ⟨s', List.mem_cons_of_mem _ hs', hp'⟩
    · cases h
      exact ⟨s, List.mem_cons_self _ _, hp⟩

/-- C3. `ReadVideo` on a decoded report resolves the timestamp exactly by
the spec's ordered fallback chain (`specVideoChain`): vendor creation
date with the timezone-qualified layout first, then the generic container
creation-time with the local layout, then the streams in order with the
local layout, the first success winning (a local-layout success is viewed
through `inLocal`, the same instant in the process zone); the chain's
non-zero result becomes the timestamp, anything else skips.  In
particular, both layouts reject the empty tag, so a report whose only
timestamp field is the generic container creation-time takes that field
parsed with the local layout. -/
theorem readVideo_fallback_chain (inLocal : GoTime → GoTime) (p : Ffprobe) :
    ReadVideo inLocal (.report p) =
      (match specVideoChain inLocal p with
       | some tm =>
         if isZero tm then (probeDimsMeta p, some .skipFile)
         else ({ probeDimsMeta p with time := tm }, none)
       | none => (probeDimsMeta p, some .skipFile)) ∧
    parseTzDate "" = none ∧ parseLocalDate "" = none := by
  refine ⟨?_, by decide, by decide⟩
  simp only [ReadVideo, specVideoChain, ← firstStreamTime_findSome]
  cases parseTzDate p.format.tags.qtCreationDate
  · cases parseLocalDate p.format.tags.creationTime
    · cases firstStreamTime p.streams <;> rfl
    · rfl
  · rfl

/-- C4. A video report in which no fallback step yields a parseable
non-zero timestamp makes `ReadVideo` fail with the skip sentinel, and the
walker finalizes the record as Skipped — not Error — returning no error
to the traversal. -/
theorem readVideo_no_timestamp_skips (inLocal : GoTime → GoTime) (p : Ffprobe)
    (o : String) (e : Entry) (rawExt : String)
    (hloc : ∀ t, isZero (inLocal t) = isZero t)
    (h1 : ∀ tm, parseTzDate p.format.tags.qtCreationDate = some tm → isZero tm = true)
    (h2 : ∀ tm, parseLocalDate p.format.tags.creationTime = some tm → isZero tm = true)
    (h3 : ∀ s ∈ p.streams, ∀ tm, parseLocalDate s.tags.creationTime = some tm →
      isZero tm = true)
    (hdir : e.isDir = false) (hext : sliceFrom1 (goExt e.name) = some rawExt)
    (hvid : VidMatch e.name = true)
    (hex : e.extract = ReadVideo inLocal (.report p)) :
    (ReadVideo inLocal (.report p)).2 = some .skipFile ∧
    (recordOf o e).flag = .flagSkipped ∧ visitErr o e = none := by
  have hskip : (ReadVideo inLocal (.report p)).2 = some .skipFile := by
    simp only [ReadVideo]
    cases hq : parseTzDate p.format.tags.qtCreationDate
    · cases hc : parseLocalDate p.format.tags.creationTime
      · cases hs : firstStreamTime p.streams
        · rfl
        · rcases firstStreamTime_mem _ _ hs with ⟨s, hsm, hsp⟩
          have hz : isZero (inLocal _) = true := (hloc _).trans (h3 s hsm _ hsp)
          simp [hz]
      · have hz : isZero (inLocal _) = true := (hloc _).trans (h2 _ hc)
        simp [hz]
    · have hz := h1 _ hq
      simp [hz]
  have hv := visit_classified_eq o e rawExt hdir hext (Or.inr hvid)
  have hex2 : e.extract.2 = some .skipFile := by rw [hex, hskip]
  rw [hex2, placeFile_skip] at hv
  exact ⟨hskip, by simp [recordOf, hv], by simp [visitErr, hv]⟩

/-- A probe report with no parseable timestamp anywhere: garbage vendor
date, garbage container creation-time, one stream with a garbage
creation-time tag. -/
def pNoTs : Ffprobe := { streams := [⟨0, 0, "", ⟨"z"⟩⟩], format := ⟨⟨"y", "x"⟩⟩ }

/-- A `.mov` entry whose extraction is `ReadVideo` on `pNoTs`. -/
def entNoTsMov : Entry :=
  { fpath := "in/b.mov", name := "b.mov", isDir := false, size := 3,
    extract := ReadVideo id (.report pNoTs), mkdirOk := true, link := .ok }

/-- Witness for C4 at the concrete report with no parseable timestamp. -/
theorem readVideo_no_timestamp_skips_witness :
    (ReadVideo id (.report pNoTs)).2 = some .skipFile ∧
    (recordOf "out" entNoTsMov).flag = .flagSkipped ∧ visitErr "out" entNoTsMov = none :=
  readVideo_no_timestamp_skips id pNoTs "out" entNoTsMov "mov"
    (fun _ => rfl)
    (by
      intro tm h
      rw [show parseTzDate pNoTs.format.tags.qtCreationDate = none from by decide] at h
      cases h)
    (by
      intro tm h
      rw [show parseLocalDate pNoTs.format.tags.creationTime = none from by decide] at h
      cases h)
    (by
      intro s hs tm h
      rw [show pNoTs.streams = [⟨0, 0, "", ⟨"z"⟩⟩] from rfl] at hs
      rcases List.mem_singleton.mp hs with rfl
      rw [show parseLocalDate (⟨0, 0, "", ⟨"z"⟩⟩ : FfStream).tags.creationTime = none
        from by decide] at h
      cases h)
    (by decide) (by decide) (by decide) rfl

/-! ## C5: the image extractor's error/skip policy -/

/-- C5. `ReadImage` returns a hard I/O error exactly when the file cannot
be opened, and the skip sentinel when the file opens but the EXIF block
is absent/undecodable or the EXIF capture timestamp is absent or
zero-valued.  In the walker: an unopenable image's record becomes Error,
a skip becomes Skipped, and neither aborts the walk. -/
theorem readImage_error_skip_policy (img : ImageFile) (o : String) (e : Entry) (rawExt : String)
    (hdir : e.isDir = false) (hext : sliceFrom1 (goExt e.name) = some rawExt)
    (himg : ImgMatch e.name = true)
    (hex : e.extract = ReadImage img) :
    (ReadImage img).2 =
      (if img.openable = false then some .ioError
       else
        match img.exif with
        | none => some .skipFile
        | some x =>
          match x.dateTime with
          | none => some .skipFile
          | some tm => if isZero tm then some .skipFile else none) ∧
    (img.openable = false → (recordOf o e).flag = .flagError ∧ visitErr o e = none) ∧
    ((ReadImage img).2 = some .skipFile → (recordOf o e).flag = .flagSkipped ∧
      visitErr o e = none) := by
  have hv := visit_classified_eq o e rawExt hdir hext (Or.inl himg)
  refine ⟨?_, ?_, ?_⟩
  · by_cases ho : img.openable = false
    · simp [ReadImage, ho]
    · simp only [ReadImage, ho, if_false]
      cases hxe : img.exif with
      | none => simp
      | some x =>
        cases hdt : x.dateTime with
        | none => simp [hdt]
        | some tm => cases hz : isZero tm <;> simp [hdt, hz]
  · intro ho
    have hx : (ReadImage img).2 = some .ioError := by simp [ReadImage, ho]
    have hex2 : e.extract.2 = some .ioError := by rw [hex, hx]
    rw [hex2, placeFile_err _ _ _ _ (by intro h; cases h)] at hv
    exact ⟨by simp [recordOf, hv], by simp [visitErr, hv]⟩
  · intro hs
    have hex2 : e.extract.2 = some .skipFile := by rw [hex, hs]
    rw [hex2, placeFile_skip] at hv
    exact ⟨by simp [recordOf, hv], by simp [visitErr, hv]⟩

/-- An image file that cannot be opened at all. -/
def imgUnopenable : ImageFile := { openable := false, exif := none, altDims := none }

/-- A `.jpg` entry whose extraction is `ReadImage` on `imgUnopenable`. -/
def entBadJpg : Entry :=
  { fpath := "in/d.jpg", name := "d.jpg", isDir := false, size := 2,
    extract := ReadImage imgUnopenable, mkdirOk := true, link := .ok }

/-- Witness for C5 at the concrete unopenable image. -/
theorem readImage_error_skip_policy_witness :
    (ReadImage imgUnopenable).2 =
      (if imgUnopenable.openable = false then some .ioError
       else
        match imgUnopenable.exif with
        | none => some .skipFile
        | some x =>
          match x.dateTime with
          | none => some .skipFile
          | some tm => if isZero tm then some .skipFile else none) ∧
    (imgUnopenable.openable = false → (recordOf "out" entBadJpg).flag = .flagError ∧
      visitErr "out" entBadJpg = none) ∧
    ((ReadImage imgUnopenable).2 = some .skipFile →
      (recordOf "out" entBadJpg).flag = .flagSkipped ∧ visitErr "out" entBadJpg = none) :=
  readImage_error_skip_policy imgUnopenable "out" entBadJpg "jpg"
    (by decide) (by decide) (by decide) rfl

/-! ## C8: what the classification regexes actually accept -/

lemma isSubstr_iff (pat l : List Char) :
    isSubstr pat l = true ↔ ∃ pre post, l = pre ++ pat ++ post := by
  induction l with
  | nil =>
    rw [isSubstr]
    simp only [List.isEmpty_iff]
    constructor
    · rintro rfl
      exact ⟨[], [], rfl⟩
    · rintro ⟨pre, post, h⟩
      rcases List.append_eq_nil.mp h.symm with ⟨h1, _⟩
      exact (List.append_eq_nil.mp h1).2
  | cons c rest ih =>
    rw [isSubstr]
    simp only [Bool.or_eq_true, List.isPrefixOf_iff_prefix, ih]
    constructor
    · rintro (⟨post, hp⟩ | ⟨pre, post, rfl⟩)
      · exact ⟨[], post, by simp [hp]⟩
      · exact ⟨c :: pre, post, by simp⟩
    · rintro ⟨pre, post, h⟩
      cases pre with
      | nil =>
        exact Or.inl ⟨post, by simpa using h.symm⟩
      | cons c' pre' =>
        simp only [List.cons_append, List.cons.injEq] at h
        exact Or.inr ⟨pre', post, h.2⟩

lemma occursShifted_iff (pat : String) (l : List Char) :
    occursShifted pat l = true ↔
      ∃ pre c post, l = pre ++ c :: (pat.data ++ post) ∧ c ≠ '\n' := by
  induction l with
  | nil =>
    rw [occursShifted]
    simp only [Bool.false_eq_true, false_iff]
    rintro ⟨pre, c, post, h, -⟩
    cases pre <;> simp at h
  | cons c rest ih =>
    rw [occursShifted]
    simp only [Bool.or_eq_true, Bool.and_eq_true, bne_iff_ne, ne_eq,
      List.isPrefixOf_iff_prefix, ih]
    constructor
    · rintro (⟨hc, t, ht⟩ | ⟨pre, c', post, hr, hc'⟩)
      · exact ⟨[], c, t, by rw [List.nil_append, ← ht], hc⟩
      · exact ⟨c :: pre, c', post, by rw [hr, List.cons_append], hc'⟩
    · rintro ⟨pre, c', post, h, hc'⟩
      cases pre with
      | nil =>
        simp only [List.nil_append, List.cons.injEq] at h
        obtain ⟨rfl, h2⟩ := h
        exact Or.inl ⟨hc', post, h2.symm⟩
      | cons p ps =>
        simp only [List.cons_append, List.cons.injEq] at h
        exact Or.inr ⟨ps, c', post, h.2, hc'⟩

/-- A plain-text entry whose name does contain `jpg`, but at position 0. -/
def entJpgTxt : Entry :=
  { fpath := "in/jpg.txt", name := "jpg.txt", isDir := false, size := 1,
    extract := (⟨0, 0, zeroTime⟩, none), mkdirOk := true, link := .ok }

/-- Counterexample to C8 as stated: the filename "jpg.txt" contains the
substring `jpg` (case-insensitively), yet the regex `(?i).(jpe?g)` needs
one character before the pattern, so the record stays Unclassified with
an empty link. -/
theorem classify_containment_cex :
    isSubstr "jpg".data (lowerData "jpg.txt") = true ∧
    (recordOf "out" entJpgTxt).flag = .flagUnknown ∧
    (recordOf "out" entJpgTxt).link = "" := by decide

/-- C8 (amended). Classification is a case-insensitive containment test
against the full filename of the pattern preceded by at least one
character other than newline (the regex's unescaped `.`, which in Go's
default mode matches anything but `'\n'`): jpg/jpeg classify as image
(tested first), mov/mp4/m4v as video; `"photo.JPG.bak"` is still an
image, but a name whose only pattern occurrence starts at position 0
(such as `"jpg.txt"`) or sits right after a newline (such as
`"a\njpg"`) matches nothing.  Any non-matching file yields a record
with status Unclassified and an empty link, with no extraction
attempted: the visit does not depend on the extractor outcome. -/
theorem classify_shifted_containment (o : String) (e : Entry)
    (x : FileMeta × Option GoErr) (rawExt : String)
    (hdir : e.isDir = false) (hext : sliceFrom1 (goExt e.name) = some rawExt)
    (hni : ImgMatch e.name = false) (hnv : VidMatch e.name = false) :
    visit o e = .done { origin := e.fpath, link := "", flag := .flagUnknown, size := e.size,
                        name := e.name, ext := strToLower rawExt, width := 0, height := 0 } none ∧
    visit o { e with extract := x } = visit o e ∧
    (∀ s : String, ImgMatch s = true ↔
      ((∃ pre c post, lowerData s = pre ++ c :: ("jpg".data ++ post) ∧ c ≠ '\n') ∨
        (∃ pre c post, lowerData s = pre ++ c :: ("jpeg".data ++ post) ∧ c ≠ '\n'))) ∧
    ImgMatch "photo.JPG.bak" = true ∧ ImgMatch "jpg.txt" = false ∧
    ImgMatch "a\njpg" = false := by
  refine ⟨?_, ?_, ?_, by decide, by decide, by decide⟩
  · simp [visit, hdir, hext, hni, hnv]
  · simp [visit, hdir, hext, hni, hnv]
  · intro s
    rw [ImgMatch, Bool.or_eq_true, occursShifted_iff, occursShifted_iff]

/-- An unclassified plain-text entry. -/
def entTxt : Entry :=
  { fpath := "in/c.txt", name := "c.txt", isDir := false, size := 1,
    extract := (⟨0, 0, zeroTime⟩, none), mkdirOk := true, link := .ok }

/-- Witness for C8 (amended) at the concrete unclassified entry. -/
theorem classify_shifted_containment_witness :
    visit "out" entTxt = .done { origin := entTxt.fpath, link := "", flag := .flagUnknown,
                                 size := entTxt.size, name := entTxt.name,
                                 ext := strToLower "txt", width := 0, height := 0 } none ∧
    visit "out" { entTxt with extract := (⟨1, 2, tmJul⟩, some .ioError) } = visit "out" entTxt ∧
    (∀ s : String, ImgMatch s = true ↔
      ((∃ pre c post, lowerData s = pre ++ c :: ("jpg".data ++ post) ∧ c ≠ '\n') ∨
        (∃ pre c post, lowerData s = pre ++ c :: ("jpeg".data ++ post) ∧ c ≠ '\n'))) ∧
    ImgMatch "photo.JPG.bak" = true ∧ ImgMatch "jpg.txt" = false ∧
    ImgMatch "a\njpg" = false :=
  classify_shifted_containment "out" entTxt (⟨1, 2, tmJul⟩, some .ioError) "txt"
    (by decide) (by decide) (by decide) (by decide)

/-! ## C10: the extension slice panics on dot-less names -/

lemma placeFile_ne_panic (e : Entry) (np : String) (file : File) (err : Option GoErr) :
    placeFile e np file err ≠ .panicked := by
  intro h
  rcases err with _ | er
  · rw [placeFile] at h
    by_cases h1 : np = ""
    · rw [if_pos h1] at h
      cases h
    · rw [if_neg h1] at h
      by_cases h2 : e.mkdirOk = false
      · rw [if_pos h2] at h
        cases h
      · rw [if_neg h2] at h
        cases hle : e.link <;> rw [hle] at h <;> cases h
  · cases er <;> simp [placeFile] at h

lemma extFromRev_nil_iff (acc : List Char) (r : List Char) (hsl : '/' ∉ r) :
    extFromRev acc r = [] ↔ '.' ∉ r := by
  induction r generalizing acc with
  | nil => simp [extFromRev]
  | cons c rest ih =>
    simp only [List.mem_cons, not_or] at hsl
    rw [extFromRev, if_neg (fun h => hsl.1 h.symm)]
    by_cases hc : c = '.'
    · subst hc
      simp
    · rw [if_neg hc, ih (c :: acc) hsl.2]
      constructor
      · intro hr hm
        rcases List.mem_cons.mp hm with h | h
        · exact hc h.symm
        · exact hr h
      · intro hcr hr
        exact hcr (List.mem_cons_of_mem _ hr)

/-- C10. A non-directory visit panics — before any classification or
record finalization — exactly when the file's base name contains no dot:
`filepath.Ext` yields the empty string and the Go slice `[1:]` of it is
out of bounds.  A panicking visit aborts the walk with no record for the
file.  (Base names contain no path separator, hypothesis `hsl`.) -/
theorem visit_panics_iff_no_dot (o : String) (e : Entry) (rest : List Entry)
    (hdir : e.isDir = false) (hsl : '/' ∉ e.name.data) :
    (visit o e = .panicked ↔ '.' ∉ e.name.data) ∧
    (visit o e = .panicked → walkPath o (e :: rest) = ([], .panicked)) := by
  have hsl' : '/' ∉ e.name.data.reverse := fun h => hsl (List.mem_reverse.mp h)
  have hnil := extFromRev_nil_iff [] e.name.data.reverse hsl'
  have hext : (goExt e.name).data = extFromRev [] e.name.data.reverse := rfl
  have hiff : sliceFrom1 (goExt e.name) = none ↔ '.' ∉ e.name.data := by
    rw [sliceFrom1, hext]
    by_cases hz : extFromRev [] e.name.data.reverse = []
    · rw [if_pos hz]
      constructor
      · intro _ hm
        exact (hnil.mp hz) (List.mem_reverse.mpr hm)
      · intro _
        rfl
    · rw [if_neg hz]
      constructor
      · intro h
        cases h
      · intro hnd
        exact absurd (hnil.mpr fun hm => hnd (List.mem_reverse.mp hm)) hz
  have hvp : visit o e = .panicked ↔ sliceFrom1 (goExt e.name) = none := by
    constructor
    · intro h
      cases hse : sliceFrom1 (goExt e.name) with
      | none => rfl
      | some rawExt =>
        exfalso
        simp only [visit, hdir, Bool.false_eq_true, if_false, hse] at h
        split at h
        · exact placeFile_ne_panic _ _ _ _ h
        · split at h
          · exact placeFile_ne_panic _ _ _ _ h
          · cases h
    · intro h
      simp [visit, hdir, h]
  refine ⟨hvp.trans hiff, ?_⟩
  intro h
  rw [walkPath, h]

/-- An entry whose base name has no dot at all. -/
def entMakefile : Entry :=
  { fpath := "in/Makefile", name := "Makefile", isDir := false, size := 1,
    extract := (⟨0, 0, zeroTime⟩, none), mkdirOk := true, link := .ok }

/-- Witness for C10 at the concrete dot-less file name. -/
theorem visit_panics_iff_no_dot_witness :
    (visit "out" entMakefile = .panicked ↔ '.' ∉ entMakefile.name.data) ∧
    (visit "out" entMakefile = .panicked →
      walkPath "out" (entMakefile :: []) = ([], .panicked)) :=
  visit_panics_iff_no_dot "out" entMakefile [] (by decide) (by decide)

/-! ## Digit characters and lexicographic order -/

lemma dC_toNat (n : Nat) : (dC n).toNat = 48 + n % 10 := by
  have h : ∀ m, m < 10 → (Char.ofNat (48 + m)).toNat = 48 + m := by decide
  exact h (n % 10) (Nat.mod_lt _ (by omega))

lemma dC_inj (a b : Nat) (h : dC a = dC b) : a % 10 = b % 10 := by
  have h2 := congrArg Char.toNat h
  rw [dC_toNat, dC_toNat] at h2
  omega

lemma dC_lt_iff (a b : Nat) : dC a < dC b ↔ a % 10 < b % 10 := by
  have h : ∀ x, x < 10 → ∀ y, y < 10 →
      ((Char.ofNat (48 + x) < Char.ofNat (48 + y)) ↔ x < y) := by decide
  exact h (a % 10) (Nat.mod_lt _ (by omega)) (b % 10) (Nat.mod_lt _ (by omega))

lemma char_lt_irrefl (c : Char) : ¬ c < c := by simp

lemma dC_congr (x y : Nat) (h : x % 10 = y % 10) : dC x = dC y := by
  unfold dC
  rw [h]

lemma lexCons_iff (a b : Char) (as bs : List Char) :
    List.Lex (· < ·) (a :: as) (b :: bs) ↔
      (a < b ∨ (a = b ∧ List.Lex (· < ·) as bs)) := by
  constructor
  · intro h
    cases h with
    | cons h => exact Or.inr ⟨rfl, h⟩
    | rel h => exact Or.inl h
  · rintro (h | ⟨rfl, h⟩)
    · exact List.Lex.rel h
    · exact List.Lex.cons h

lemma lexIrrefl (l : List Char) : ¬ List.Lex (· < ·) l l := by
  induction l with
  | nil => exact fun h => nomatch h
  | cons c rest ih =>
    intro h
    rcases (lexCons_iff c c rest rest).mp h with h | ⟨-, h⟩
    · exact char_lt_irrefl c h
    · exact ih h

lemma lexSelf_iff (l : List Char) : List.Lex (· < ·) l l ↔ False :=
  iff_false_intro (lexIrrefl l)

lemma lexConsSame_iff (c : Char) (l1 l2 : List Char) :
    List.Lex (· < ·) (c :: l1) (c :: l2) ↔ List.Lex (· < ·) l1 l2 := by
  rw [lexCons_iff]
  simp [char_lt_irrefl c]

lemma lexAppend_iff (p a b : List Char) :
    List.Lex (· < ·) (p ++ a) (p ++ b) ↔ List.Lex (· < ·) a b := by
  induction p with
  | nil => exact Iff.rfl
  | cons c rest ih => rw [List.cons_append, List.cons_append, lexConsSame_iff, ih]

lemma dC_lexCons_iff (x y : Nat) (l1 l2 : List Char) :
    List.Lex (· < ·) (dC x :: l1) (dC y :: l2) ↔
      (x % 10 < y % 10 ∨ (x % 10 = y % 10 ∧ List.Lex (· < ·) l1 l2)) := by
  rw [lexCons_iff]
  constructor
  · rintro (h | ⟨h1, h3⟩)
    · exact Or.inl ((dC_lt_iff _ _).mp h)
    · exact Or.inr ⟨dC_inj _ _ h1, h3⟩
  · rintro (h | ⟨h, h3⟩)
    · exact Or.inl ((dC_lt_iff _ _).mpr h)
    · exact Or.inr ⟨dC_congr _ _ h, h3⟩

/-- Lexicographic comparison of two-digit zero-padded blocks agrees with
numeric comparison, and ties defer to the rest. -/
lemma pad2AppendLt_iff (a b : Nat) (l1 l2 : List Char) (ha : a < 100) (hb : b < 100) :
    List.Lex (· < ·) ((pad2 a).data ++ l1) ((pad2 b).data ++ l2) ↔
      (a < b ∨ (a = b ∧ List.Lex (· < ·) l1 l2)) := by
  show List.Lex (· < ·) (dC (a / 10) :: dC a :: l1) (dC (b / 10) :: dC b :: l2) ↔ _
  rw [dC_lexCons_iff, dC_lexCons_iff]
  constructor
  · rintro (h | ⟨h1, (h2 | ⟨h2, hp⟩)⟩)
    · left
      omega
    · left
      omega
    · right
      exact ⟨by omega, hp⟩
  · rintro (h | ⟨rfl, hp⟩)
    · rcases Nat.lt_or_ge (a / 10 % 10) (b / 10 % 10) with h1 | h1
      · exact Or.inl h1
      · exact Or.inr ⟨by omega, Or.inl (by omega)⟩
    · exact Or.inr ⟨rfl, Or.inr ⟨rfl, hp⟩⟩

lemma pad2AppendEq_iff (a b : Nat) (l1 l2 : List Char) (ha : a < 100) (hb : b < 100) :
    ((pad2 a).data ++ l1 = (pad2 b).data ++ l2) ↔ (a = b ∧ l1 = l2) := by
  show (dC (a / 10) :: dC a :: l1) = (dC (b / 10) :: dC b :: l2) ↔ _
  simp only [List.cons.injEq]
  constructor
  · rintro ⟨h1, h2, h3⟩
    have e1 := dC_inj _ _ h1
    have e2 := dC_inj _ _ h2
    exact ⟨by omega, h3⟩
  · rintro ⟨rfl, rfl⟩
    exact ⟨rfl, rfl, rfl⟩

/-! ## The shapes of the derived path and filename -/

lemma pad2_data (n : Nat) : (pad2 n).data = [dC (n / 10), dC n] := rfl

lemma pad4_data (n : Nat) :
    (pad4 n).data = [dC (n / 1000), dC (n / 100), dC (n / 10), dC n] := rfl

lemma constructFilename_data (t : GoTime) :
    (ConstructFilename t).data =
      (pad4 t.year).data ++ '-' :: ((pad2 t.month).data ++ '-' :: ((pad2 t.day).data ++ ' ' ::
        ((pad2 t.hour).data ++ '.' :: ((pad2 t.minute).data ++ '.' :: ((pad2 t.second).data ++
          ' ' :: (offsetText t.offsetMin).data))))) := by
  simp [ConstructFilename, stringDataAppend, show ("-" : String).data = ['-'] from rfl,
    show (" " : String).data = [' '] from rfl, show ("." : String).data = ['.'] from rfl]

lemma constructPath_rev (t : GoTime) :
    (ConstructPath t).data.reverse =
      dC t.day :: dC (t.day / 10) :: '-' :: dC t.month :: dC (t.month / 10) :: '-' ::
      dC t.year :: dC (t.year / 10) :: dC (t.year / 100) :: dC (t.year / 1000) :: '/' ::
      ((monthAbbrev t.month).data.reverse ++ '-' :: dC t.month :: dC (t.month / 10) :: '/' ::
        (toString t.year).data.reverse) := by
  simp [ConstructPath, pathJoin, stringDataAppend, pad2_data, pad4_data,
    show ("-" : String).data = ['-'] from rfl, show ("/" : String).data = ['/'] from rfl]

/-! ## C6: the derived directory determines the calendar day -/

/-- C6. For calendar-valid timestamps (year below 10000, month 1–12, day
1–31), two timestamps derive the same directory string exactly when they
share the calendar day: `ConstructPath` reads only the year/month/day
fields (so equal fields — any time of day — give equal strings), and
distinct calendar days never share a directory. -/
theorem constructPath_calendar_inj (t1 t2 : GoTime)
    (hy1 : t1.year < 10000) (hy2 : t2.year < 10000)
    (hm1 : t1.month ≤ 12) (hm2 : t2.month ≤ 12)
    (hd1 : t1.day ≤ 31) (hd2 : t2.day ≤ 31) :
    ConstructPath t1 = ConstructPath t2 ↔
      (t1.year = t2.year ∧ t1.month = t2.month ∧ t1.day = t2.day) := by
  constructor
  · intro h
    have hr := congrArg (fun s : String => s.data.reverse) h
    simp only [constructPath_rev] at hr
    simp only [List.cons.injEq] at hr
    obtain ⟨e1, e2, -, e3, e4, -, e5, e6, e7, e8, -⟩ := hr
    have d1 := dC_inj _ _ e1
    have d2 := dC_inj _ _ e2
    have m1 := dC_inj _ _ e3
    have m2 := dC_inj _ _ e4
    have y1 := dC_inj _ _ e5
    have y2 := dC_inj _ _ e6
    have y3 := dC_inj _ _ e7
    have y4 := dC_inj _ _ e8
    refine ⟨by omega, by omega, by omega⟩
  · rintro ⟨h1, h2, h3⟩
    simp only [ConstructPath, h1, h2, h3]

/-- 2016-07-18 14:05:00 UTC, the same calendar day as `tmJul`. -/
def tmJulLater : GoTime := ⟨2016, 7, 18, 14, 5, 0, 0, 0⟩

/-- Witness for C6 at two concrete timestamps on the same calendar day
with different times of day. -/
theorem constructPath_calendar_inj_witness :
    ConstructPath tmJul = ConstructPath tmJulLater ↔
      (tmJul.year = tmJulLater.year ∧ tmJul.month = tmJulLater.month ∧
        tmJul.day = tmJulLater.day) :=
  constructPath_calendar_inj tmJul tmJulLater (by decide) (by decide) (by decide) (by decide)
    (by decide) (by decide)

/-! ## C9: lexical order of derived filenames vs chronological order -/

/-- Counterexample to C9 as stated: two timestamps on the same calendar
day — 01:00:00 +0100 (instant 00:00 UTC) and 00:30:00 +0000 (instant
00:30 UTC).  The first is chronologically earlier, yet its derived
filename sorts lexically later, because the lexical order follows the
wall-clock digits while the offsets differ. -/
theorem constructFilename_order_cex :
    (⟨2016, 7, 18, 1, 0, 0, 0, 60⟩ : GoTime).day = (⟨2016, 7, 18, 0, 30, 0, 0, 0⟩ : GoTime).day ∧
    absSeconds ⟨2016, 7, 18, 1, 0, 0, 0, 60⟩ < absSeconds ⟨2016, 7, 18, 0, 30, 0, 0, 0⟩ ∧
    ConstructFilename ⟨2016, 7, 18, 0, 30, 0, 0, 0⟩ <
      ConstructFilename ⟨2016, 7, 18, 1, 0, 0, 0, 60⟩ := by
  refine ⟨rfl, by decide, ?_⟩
  rw [String.lt_iff_toList_lt]
  show List.Lex (· < ·) (ConstructFilename ⟨2016, 7, 18, 0, 30, 0, 0, 0⟩).data
    (ConstructFilename ⟨2016, 7, 18, 1, 0, 0, 0, 60⟩).data
  decide

/-- C9 (amended). `ConstructFilename` renders the timestamp as
`{year}-{month}-{day} {hour}.{minute}.{second} {utc-offset}` (the
lower-cased extension is appended by the walker), and for two timestamps
on the same calendar day with the SAME UTC offset, the lexical order of
the derived filenames equals the chronological order of their instants
(at seconds resolution — the format carries no sub-second digits). -/
theorem constructFilename_order (t1 t2 : GoTime)
    (hy : t1.year = t2.year) (hmo : t1.month = t2.month) (hd : t1.day = t2.day)
    (hoff : t1.offsetMin = t2.offsetMin)
    (hh1 : t1.hour < 24) (hh2 : t2.hour < 24)
    (hmi1 : t1.minute < 60) (hmi2 : t2.minute < 60)
    (hs1 : t1.second < 60) (hs2 : t2.second < 60) :
    (ConstructFilename t1 < ConstructFilename t2 ↔ absSeconds t1 < absSeconds t2) := by
  rw [String.lt_iff_toList_lt]
  show List.Lex (· < ·) (ConstructFilename t1).data (ConstructFilename t2).data ↔ _
  rw [constructFilename_data, constructFilename_data, hy, hmo, hd, hoff]
  rw [lexAppend_iff, lexConsSame_iff, lexAppend_iff, lexConsSame_iff,
    lexAppend_iff, lexConsSame_iff]
  rw [pad2AppendLt_iff t1.hour t2.hour _ _ (by omega) (by omega), lexConsSame_iff,
    pad2AppendLt_iff t1.minute t2.minute _ _ (by omega) (by omega), lexConsSame_iff,
    pad2AppendLt_iff t1.second t2.second _ _ (by omega) (by omega), lexConsSame_iff,
    lexSelf_iff]
  simp only [absSeconds, hy, hmo, hd, hoff, and_false, or_false]
  generalize daysFromCivil t2.year t2.month t2.day = D
  omega

/-- Witness for C9 (amended) at two concrete same-day, same-offset
timestamps. -/
theorem constructFilename_order_witness :
    ConstructFilename tmJul < ConstructFilename tmJulLater ↔
      absSeconds tmJul < absSeconds tmJulLater :=
  constructFilename_order tmJul tmJulLater rfl rfl rfl rfl (by decide) (by decide)
    (by decide) (by decide) (by decide) (by decide)

end Symedia
